import Mathlib

/-!
# Verification of the Yolcu Chat room-membership core

A shallow embedding of the room / membership / message / push-token data
model of the Supabase backend (migration
`20260226222804_add_messages_room_created_at_index.sql`), of the
`join_room_via_code` SQL function, of the row-level-security policies on
`messages` and `room_members`, and of the push cleanup step of the
`send-push` edge function.

Identities (`uuid` columns) are modelled as `Nat`; `text` columns as
`String`; nullable columns as `Option`. Timestamp columns
(`created_at`, `joined_at`, `updated_at`) play no role in any property
verified here and are omitted from the row types.
-/

namespace YolcuChat

/-- A row of `public.rooms`: `id uuid PK`, `name text NOT NULL`,
`created_by uuid NOT NULL`, `invite_code text` (nullable, UNIQUE). -/
structure Room where
  id : Nat
  name : String
  created_by : Nat
  invite_code : Option String
deriving Repr, DecidableEq

/-- A row of `public.room_members`: PK `(room_id, user_id)`
(constraint `room_members_pkey`). -/
structure Membership where
  room_id : Nat
  user_id : Nat
deriving Repr, DecidableEq

/-- A row of `public.messages`: `id uuid PK`, `content text NOT NULL`,
`user_id uuid NOT NULL`, `room_id uuid` (nullable, FK to rooms
ON DELETE CASCADE). -/
structure Message where
  id : Nat
  content : String
  user_id : Nat
  room_id : Option Nat
deriving Repr, DecidableEq

/-- A row of `public.push_tokens`: `user_id uuid NOT NULL`,
`token text NOT NULL UNIQUE`. -/
structure PushTokenRow where
  user_id : Nat
  token : String
deriving Repr, DecidableEq

/-- The database state: the four tables the verified operations touch. -/
structure DB where
  rooms : List Room
  room_members : List Membership
  messages : List Message
  push_tokens : List PushTokenRow
deriving Repr, DecidableEq

/-- An uncaught Postgres error escaping a statement. The only one the
modelled operations can raise is `23505 unique_violation` (from
`room_members_pkey`, `rooms_pkey` or `rooms_invite_code_key`). -/
inductive PgError where
  | uniqueViolation
deriving Repr, DecidableEq

/-- The spec's error taxonomy for the application-level operations
(`ForbiddenError`, `NotFoundError`). -/
inductive ApiError where
  | forbidden
  | notFound
deriving Repr, DecidableEq

/-! ## Basic queries -/

/-- The lookup `select id from rooms where invite_code = code_input limit 1`.
SQL `=` never matches a NULL `invite_code`. -/
def findRoomByCode (db : DB) (code : String) : Option Room :=
  db.rooms.find? (fun r => r.invite_code == some code)

/-- The check `select exists (select 1 from room_members where room_id = rid and
user_id = uid)` — also the predicate behind `room_members_pkey`. -/
def isMember (db : DB) (rid uid : Nat) : Bool :=
  db.room_members.any (fun m => m.room_id == rid && m.user_id == uid)

/-- Number of `room_members` rows for the pair `(rid, uid)`. -/
def countMemb (db : DB) (rid uid : Nat) : Nat :=
  db.room_members.countP (fun m => m.room_id == rid && m.user_id == uid)

/-- The statement `insert into room_members (room_id, user_id) values …` under the
primary-key constraint `room_members_pkey`: raises `unique_violation`
when a row with the same `(room_id, user_id)` already exists. -/
def insertMember (db : DB) (m : Membership) : Except PgError DB :=
  if isMember db m.room_id m.user_id then
    .error .uniqueViolation
  else
    .ok { db with room_members := db.room_members ++ [m] }

/-! ## `join_room_via_code`

The plpgsql function returns a `json` value
(`json_build_object('status', …, 'message', …, 'room_id', …)`);
`JoinResponse` mirrors the three keys it can carry. -/

/-- The `json` object built by `join_room_via_code`. -/
structure JoinResponse where
  status : String
  message : Option String
  room_id : Option Nat
deriving Repr, DecidableEq

/-- The function `join_room_via_code(code_input)` run by user `uid` (`auth.uid()`),
split into the state `sCheck` seen by its two reads (steps 1 and 2 of
the function body) and the state `sInsert` seen by its `INSERT`
(step 3). A sequential execution has `sCheck = sInsert`; a race with a
concurrent joiner is the instance where another `room_members` row
appeared between the check and the insert. The function body has no
`EXCEPTION` clause, so an error raised by the `INSERT` propagates
uncaught. -/
def join_room_via_code_raced (sCheck sInsert : DB) (uid : Nat)
    (code_input : String) : Except PgError (JoinResponse × DB) :=
  match findRoomByCode sCheck code_input with
  | none =>
      .ok ({ status := "error", message := some "Invalid invite code",
             room_id := none }, sInsert)
  | some r =>
      if isMember sCheck r.id uid then
        .ok ({ status := "success", message := some "Already a member",
               room_id := some r.id }, sInsert)
      else
        match insertMember sInsert ⟨r.id, uid⟩ with
        | .error e => .error e
        | .ok s' =>
            .ok ({ status := "success", message := none,
                   room_id := some r.id }, s')

/-- The function `join_room_via_code(code_input)` run sequentially by user `uid`:
all three steps of the function body read and write the same state. -/
def join_room_via_code (db : DB) (uid : Nat) (code_input : String) :
    Except PgError (JoinResponse × DB) :=
  join_room_via_code_raced db db uid code_input

/-! ## Room creation: `generate_room_code` trigger and constraints -/

/-- Postgres `substr(s, start, count)` for 1-based `start` that may be
0 or negative: the result keeps the characters at positions `p` with
`max(start,1) ≤ p ≤ start + count - 1`. In particular
`substr(s, 0, 8)` yields positions 1..7 — seven characters. -/
def pgSubstr (s : String) (start count : Int) : String :=
  let lo := max start 1
  let hi := start + count
  String.mk ((s.data.drop (lo - 1).toNat).take (hi - lo).toNat)

/-- The `generate_room_code` trigger body (BEFORE INSERT ON rooms):
if `NEW.invite_code IS NULL` it sets it to
`substr(md5(random()::text), 0, 8)`. The 32-character lowercase hex
digest `md5(random()::text)` is the parameter `md5hex`. -/
def generate_room_code (md5hex : String) (invite_code : Option String) :
    Option String :=
  match invite_code with
  | some c => some c
  | none => some (pgSubstr md5hex 0 8)

/-- An `INSERT INTO rooms` as executed by the database: first the
`trigger_add_code_to_room` BEFORE INSERT trigger runs
`generate_room_code`, then the `rooms_pkey` and `rooms_invite_code_key`
unique constraints are enforced (each raising `23505
unique_violation`); a NULL `invite_code` never conflicts. -/
def insertRoom (db : DB) (r : Room) (md5hex : String) :
    Except PgError DB :=
  if db.rooms.any (fun q => q.id == r.id) then
    .error .uniqueViolation
  else if (match generate_room_code md5hex r.invite_code with
           | some c => db.rooms.any (fun q => q.invite_code == some c)
           | none => false) then
    .error .uniqueViolation
  else
    .ok { db with rooms :=
      db.rooms ++ [{ r with invite_code := generate_room_code md5hex r.invite_code }] }

/-! ## Room deletion and kick -/

/-- Deleting the `rooms` row with id `rid` together with the cascades
declared in the schema: `messages_room_id_fkey` and
`room_members_room_id_fkey` are both `ON DELETE CASCADE`, so every
`messages` row and every `room_members` row referencing `rid` is
deleted with it (a `messages` row with NULL `room_id` is untouched). -/
def cascadeDeleteRoom (db : DB) (rid : Nat) : DB :=
  { rooms := db.rooms.filter (fun r => !(r.id == rid))
    room_members := db.room_members.filter (fun m => !(m.room_id == rid))
    messages := db.messages.filter (fun ms => !(ms.room_id == some rid))
    push_tokens := db.push_tokens }

/-- Modelled from the spec: the `delete_room` RPC is invoked by the
client (`supabase.rpc("delete_room", { room_id })`) but its SQL body is
not in the repository. Per spec §4.3, only the creator may delete and
deletion cascades to all Memberships and Messages referencing the room;
it fails with `ForbiddenError` for non-creators. The cascade itself is
the schema's `ON DELETE CASCADE` behaviour (`cascadeDeleteRoom`).
Returns the outcome together with the resulting state (the state is
unchanged on every error path). -/
def delete_room (db : DB) (actor rid : Nat) : Except ApiError Unit × DB :=
  match db.rooms.find? (fun r => r.id == rid) with
  | none => (.error .notFound, db)
  | some r =>
      if r.created_by == actor then
        (.ok (), cascadeDeleteRoom db rid)
      else
        (.error .forbidden, db)

/-- Modelled from the spec: the `kick_member` RPC is invoked by the
client (`supabase.rpc("kick_member", { room_id, target_user_id })`)
but its SQL body is not in the repository. Per spec §4.3, only the
creator of the room may remove another member's Membership; it fails
with `ForbiddenError` if the actor is not the creator, or if the
target equals the creator. Returns the outcome together with the
resulting state (unchanged on every error path). -/
def kick_member (db : DB) (actor rid target : Nat) :
    Except ApiError Unit × DB :=
  match db.rooms.find? (fun r => r.id == rid) with
  | none => (.error .notFound, db)
  | some r =>
      if r.created_by == actor then
        if target == r.created_by then
          (.error .forbidden, db)
        else
          (.ok (), { db with
            room_members := db.room_members.filter
              (fun m => !(m.room_id == rid && m.user_id == target)) })
      else
        (.error .forbidden, db)

/-! ## Row-level-security policies

`auth.uid()` is `Option Nat`: `none` for an unauthenticated request.
SQL equality with NULL is never true. -/

/-- SQL equality between two possibly-NULL values: true only when both
are non-NULL and equal. -/
def sqlEq (a b : Option Nat) : Bool :=
  match a, b with
  | some x, some y => x == y
  | _, _ => false

/-- Policy "Members can read messages" ON messages FOR SELECT USING
(EXISTS (SELECT 1 FROM room_members WHERE room_members.room_id =
messages.room_id AND room_members.user_id = auth.uid())). -/
def canReadMessage (db : DB) (uid : Option Nat) (msg : Message) : Bool :=
  db.room_members.any (fun m =>
    sqlEq (some m.room_id) msg.room_id && sqlEq (some m.user_id) uid)

/-- Policy "Members can send messages" ON messages FOR INSERT WITH
CHECK (EXISTS (SELECT 1 FROM room_members WHERE room_members.room_id =
messages.room_id AND room_members.user_id = auth.uid())). -/
def canSendMessage (db : DB) (uid : Option Nat) (msg : Message) : Bool :=
  db.room_members.any (fun m =>
    sqlEq (some m.room_id) msg.room_id && sqlEq (some m.user_id) uid)

/-- Policy "Anyone logged in can view room members" ON room_members
FOR SELECT TO authenticated USING (true): any authenticated request
may read any `room_members` row; unauthenticated requests have no
applicable policy and are denied. The state and the row play no part
in the policy expression. -/
def canViewRoomMembers (_db : DB) (uid : Option Nat) : Bool :=
  uid.isSome

/-! ## Push cleanup (`send-push` edge function, step 5)

After dispatching the chunks, the function walks the provider's
per-chunk receipt arrays (`data.data`, matching the input order), and
collects `chunk[index].to` into `badTokens` exactly when the receipt
has `status === "error"` and `details?.error === "DeviceNotRegistered"`;
it then deletes the `push_tokens` rows whose token is in `badTokens`. -/

/-- A provider receipt: `status` plus the optional `details.error`. -/
structure ExpoReceipt where
  status : String
  details_error : Option String
deriving Repr, DecidableEq

/-- The bad tokens of one batch: the chunk's tokens paired in order
with the receipt array, keeping those whose receipt is an error with
`details.error === "DeviceNotRegistered"`. -/
def batchBadTokens (b : List String × List ExpoReceipt) : List String :=
  (b.1.zip b.2).filterMap (fun p =>
    if p.2.status == "error" && p.2.details_error == some "DeviceNotRegistered"
    then some p.1 else none)

/-- The `badTokens` list accumulated over all batches (the `results` array:
each element a chunk of sent tokens with its receipt array). -/
def badTokensOf (results : List (List String × List ExpoReceipt)) :
    List String :=
  results.flatMap batchBadTokens

/-- Step 5 of the `send-push` handler: when `badTokens` is non-empty,
`delete from push_tokens where token in badTokens`. -/
def pushCleanup (db : DB) (results : List (List String × List ExpoReceipt)) :
    DB :=
  let bad := badTokensOf results
  if bad.length > 0 then
    { db with push_tokens :=
        db.push_tokens.filter (fun t => !(bad.contains t.token)) }
  else
    db

/-! ## Invariants -/

/-- The `room_members_pkey` invariant: no two rows of `room_members`
share the pair `(room_id, user_id)`. -/
def membersPkey (db : DB) : Prop :=
  db.room_members.Pairwise
    (fun a b => ¬(a.room_id = b.room_id ∧ a.user_id = b.user_id))

/-- The `rooms_invite_code_key` invariant: no two rows of `rooms` carry
the same non-NULL invite code. -/
def codesUnique (db : DB) : Prop :=
  db.rooms.Pairwise
    (fun a b => ¬(a.invite_code.isSome ∧ a.invite_code = b.invite_code))

/-- The `messages_room_id_fkey` invariant: a non-NULL `room_id` of a
message references an existing room. -/
def fkMessages (db : DB) : Prop :=
  ∀ ms ∈ db.messages, ∀ rid, ms.room_id = some rid →
    ∃ r ∈ db.rooms, r.id = rid

/-- The `room_members_room_id_fkey` invariant: the `room_id` of a
membership references an existing room. -/
def fkMembers (db : DB) : Prop :=
  ∀ mb ∈ db.room_members, ∃ r ∈ db.rooms, r.id = mb.room_id

/-- Concrete one-room state used to instantiate the theorems below. -/
def wRoom : Room := { id := 1, name := "Hiking", created_by := 7, invite_code := some "ab12cd3" }

/-- A state holding only `wRoom`, with no members, messages or tokens. -/
def wDb : DB := { rooms := [wRoom], room_members := [], messages := [], push_tokens := [] }

/-! ## Helper lemmas -/

/-- Under the pairwise-distinct-key invariant, at most one row of a
membership list matches a given `(room_id, user_id)` pair. -/
theorem countP_pair_le_one (l : List Membership) (rid uid : Nat)
    (h : l.Pairwise (fun a b => ¬(a.room_id = b.room_id ∧ a.user_id = b.user_id))) :
    l.countP (fun m => m.room_id == rid && m.user_id == uid) ≤ 1 := by
  induction l with
  | nil => simp
  | cons m t ih =>
      rcases List.pairwise_cons.mp h with ⟨hm, ht⟩
      simp only [List.countP_cons]
      by_cases hp : (m.room_id == rid && m.user_id == uid) = true
      · have heq : m.room_id = rid ∧ m.user_id = uid := by
          simpa [Bool.and_eq_true, beq_iff_eq] using hp
        have hz : t.countP (fun x => x.room_id == rid && x.user_id == uid) = 0 := by
          rw [List.countP_eq_zero]
          intro x hx hxp
          have hxeq : x.room_id = rid ∧ x.user_id = uid := by
            simpa [Bool.and_eq_true, beq_iff_eq] using hxp
          exact hm x hx ⟨heq.1.trans hxeq.1.symm, heq.2.trans hxeq.2.symm⟩
        simp [hp, hz]
      · have hle := ih ht
        simp only [hp, if_false]
        simpa using hle

/-- A pair that `isMember` reports present is counted at least once. -/
theorem countMemb_pos_of_isMember (db : DB) (rid uid : Nat)
    (h : isMember db rid uid = true) : 0 < countMemb db rid uid := by
  rw [countMemb]
  rw [isMember, List.any_eq_true] at h
  exact List.countP_pos_iff.mpr h

/-- A pair that `isMember` reports absent is counted zero times. -/
theorem countMemb_zero_of_not_isMember (db : DB) (rid uid : Nat)
    (h : isMember db rid uid = false) : countMemb db rid uid = 0 := by
  rw [countMemb, List.countP_eq_zero]
  rw [isMember, List.any_eq_false] at h
  exact h

/-! ## Claim theorems -/

/-- C1: `join_room_via_code` is idempotent. For every state satisfying
the `room_members_pkey` invariant, every room with a valid (matching)
invite code and every user, two successive calls with the same code and
user both succeed returning the same room id, and exactly one
`room_members` row for that `(room, user)` pair remains. -/
theorem join_room_via_code_idempotent
    (db : DB) (uid : Nat) (code : String) (r : Room)
    (hpk : membersPkey db)
    (hfind : findRoomByCode db code = some r) :
    ∃ resp₁ db₁ resp₂ db₂,
      join_room_via_code db uid code = .ok (resp₁, db₁) ∧
      join_room_via_code db₁ uid code = .ok (resp₂, db₂) ∧
      resp₁.status = "success" ∧ resp₂.status = "success" ∧
      resp₁.room_id = some r.id ∧ resp₂.room_id = resp₁.room_id ∧
      countMemb db₂ r.id uid = 1 := by
  by_cases hm : isMember db r.id uid = true
  · refine ⟨⟨"success", some "Already a member", some r.id⟩, db,
      ⟨"success", some "Already a member", some r.id⟩, db, ?_, ?_, rfl, rfl, rfl, rfl, ?_⟩
    · simp [join_room_via_code, join_room_via_code_raced, hfind, hm]
    · simp [join_room_via_code, join_room_via_code_raced, hfind, hm]
    · have h1 := countMemb_pos_of_isMember db r.id uid hm
      have h2 := countP_pair_le_one db.room_members r.id uid hpk
      rw [countMemb] at h1 ⊢
      omega
  · have hm' : isMember db r.id uid = false := by
      simpa using hm
    set db₁ : DB := { db with room_members := db.room_members ++ [⟨r.id, uid⟩] } with hdb₁
    have hfind₁ : findRoomByCode db₁ code = some r := by
      simpa [findRoomByCode, hdb₁] using hfind
    have hm₁ : isMember db₁ r.id uid = true := by
      simp [isMember, hdb₁, List.any_append]
    refine ⟨⟨"success", none, some r.id⟩, db₁,
      ⟨"success", some "Already a member", some r.id⟩, db₁, ?_, ?_, rfl, rfl, rfl, rfl, ?_⟩
    · simp [join_room_via_code, join_room_via_code_raced, hfind, hm', insertMember, hm, hdb₁]
    · simp [join_room_via_code, join_room_via_code_raced, hfind₁, hm₁]
    · have hz := countMemb_zero_of_not_isMember db r.id uid hm'
      rw [countMemb] at hz ⊢
      simp [hdb₁, List.countP_append, hz]

/-- Closed instance of C1: joining `wDb` twice as user 10 with the
valid code "ab12cd3" succeeds both times with room id 1 and leaves one
membership row. -/
theorem join_room_via_code_idempotent_witness :
    (membersPkey wDb ∧ findRoomByCode wDb "ab12cd3" = some wRoom) ∧
    (∃ resp₁ db₁ resp₂ db₂,
      join_room_via_code wDb 10 "ab12cd3" = .ok (resp₁, db₁) ∧
      join_room_via_code db₁ 10 "ab12cd3" = .ok (resp₂, db₂) ∧
      resp₁.status = "success" ∧ resp₂.status = "success" ∧
      resp₁.room_id = some wRoom.id ∧ resp₂.room_id = resp₁.room_id ∧
      countMemb db₂ wRoom.id 10 = 1) :=
  ⟨⟨List.Pairwise.nil, by rfl⟩,
    join_room_via_code_idempotent wDb 10 "ab12cd3" wRoom List.Pairwise.nil (by rfl)⟩

/-- C3: for every code that matches no room's invite code,
`join_room_via_code` returns the error object with message
"Invalid invite code" (the spec's `NotFoundError`) and leaves the
state — in particular every `room_members` row — unchanged. -/
theorem join_room_unknown_code
    (db : DB) (uid : Nat) (code : String)
    (h : findRoomByCode db code = none) :
    join_room_via_code db uid code =
      .ok ({ status := "error", message := some "Invalid invite code",
             room_id := none }, db) := by
  simp [join_room_via_code, join_room_via_code_raced, h]

/-- Closed instance of C3: the code "zzz" matches no room of `wDb`,
and joining with it returns the invalid-code error with `wDb` intact. -/
theorem join_room_unknown_code_witness :
    findRoomByCode wDb "zzz" = none ∧
    join_room_via_code wDb 10 "zzz" =
      .ok ({ status := "error", message := some "Invalid invite code",
             room_id := none }, wDb) :=
  ⟨by rfl, join_room_unknown_code wDb 10 "zzz" (by rfl)⟩

/-- C2: invite codes are globally unique. Starting from a state whose
rooms satisfy the `rooms_invite_code_key` invariant, a successful room
insert preserves it, cascading room deletion preserves it, and an
insert whose row (after the `generate_room_code` trigger) carries a
code some existing room already holds fails with a unique violation. -/
theorem invite_codes_unique
    (db : DB) (r : Room) (md5hex : String)
    (hu : codesUnique db) :
    (∀ db', insertRoom db r md5hex = .ok db' → codesUnique db') ∧
    (∀ rid, codesUnique (cascadeDeleteRoom db rid)) ∧
    (∀ c, generate_room_code md5hex r.invite_code = some c →
      (∃ q ∈ db.rooms, q.invite_code = some c) →
      insertRoom db r md5hex = .error .uniqueViolation) := by
  obtain ⟨c₀, hc₀⟩ : ∃ c, generate_room_code md5hex r.invite_code = some c := by
    cases r.invite_code <;> exact ⟨_, rfl⟩
  refine ⟨?_, ?_, ?_⟩
  · intro db' h
    simp only [insertRoom, hc₀] at h
    split_ifs at h with h1 h2
    cases h
    rw [codesUnique]
    apply List.pairwise_append.mpr
    refine ⟨hu, List.pairwise_singleton _ _, ?_⟩
    intro a ha b hb
    rw [List.mem_singleton] at hb
    subst hb
    rintro ⟨_, heq⟩
    simp only [hc₀] at heq
    exact h2 (List.any_eq_true.mpr ⟨a, ha, by simp [heq]⟩)
  · intro rid
    rw [codesUnique]
    exact List.Pairwise.filter _ hu
  · rintro c hc ⟨q, hq, hqc⟩
    simp only [insertRoom, hc]
    split_ifs with h1 h2
    · rfl
    · rfl
    · exact absurd (List.any_eq_true.mpr ⟨q, hq, by simp [hqc]⟩) h2

/-- Closed instance of C2: inserting into `wDb` a second room carrying
the already-used code "ab12cd3" fails with a unique violation, and the
insert of a fresh room preserves the invariant. -/
theorem invite_codes_unique_witness :
    codesUnique wDb ∧
    ((∀ db', insertRoom wDb ⟨2, "Trip", 8, some "ab12cd3"⟩ "0123456789abcdef0123456789abcdef" = .ok db' → codesUnique db') ∧
     (∀ rid, codesUnique (cascadeDeleteRoom wDb rid)) ∧
     (∀ c, generate_room_code "0123456789abcdef0123456789abcdef" (some "ab12cd3") = some c →
       (∃ q ∈ wDb.rooms, q.invite_code = some c) →
       insertRoom wDb ⟨2, "Trip", 8, some "ab12cd3"⟩ "0123456789abcdef0123456789abcdef" = .error .uniqueViolation)) :=
  ⟨by simp [codesUnique, wDb],
   invite_codes_unique wDb ⟨2, "Trip", 8, some "ab12cd3"⟩ "0123456789abcdef0123456789abcdef"
     (by simp [codesUnique, wDb])⟩

/-- C4 counterexample: with room 1 of `wDb` carrying code "ab12cd3",
a second writer whose membership check ran against `wDb` (user 10 not
yet a member) but whose insert runs after the first writer's row
landed receives the raw `unique_violation` — not the idempotent
success path claimed. -/
theorem join_race_not_translated_cex :
    join_room_via_code_raced wDb
      { wDb with room_members := [⟨1, 10⟩] } 10 "ab12cd3"
      = .error .uniqueViolation := by rfl

/-- C4 (amended): when two calls race — the second writer's membership
check reads a state in which the user is not yet a member, but by the
time of its insert the first writer's row exists — `join_room_via_code`
has no exception handler, so the `room_members_pkey` unique violation
propagates to the caller as a raw conflict error (no duplicate row is
created). -/
theorem join_race_raw_conflict
    (sCheck sInsert : DB) (uid : Nat) (code : String) (r : Room)
    (hfind : findRoomByCode sCheck code = some r)
    (hnot : isMember sCheck r.id uid = false)
    (hyes : isMember sInsert r.id uid = true) :
    join_room_via_code_raced sCheck sInsert uid code
      = .error .uniqueViolation := by
  simp [join_room_via_code_raced, hfind, hnot, insertMember, hyes]

/-- Closed instance of the amended C4 at the concrete race above. -/
theorem join_race_raw_conflict_witness :
    (findRoomByCode wDb "ab12cd3" = some wRoom ∧
     isMember wDb wRoom.id 10 = false ∧
     isMember { wDb with room_members := [⟨1, 10⟩] } wRoom.id 10 = true) ∧
    join_room_via_code_raced wDb { wDb with room_members := [⟨1, 10⟩] } 10 "ab12cd3"
      = .error .uniqueViolation :=
  ⟨⟨by rfl, by rfl, by rfl⟩,
   join_race_raw_conflict wDb { wDb with room_members := [⟨1, 10⟩] } 10 "ab12cd3" wRoom
     (by rfl) (by rfl) (by rfl)⟩

/-- C5: at the failing input — a room inserted with NULL invite code
while `md5(random()::text)` is the 32-character digest
"0123456789abcdef0123456789abcdef" — the `generate_room_code` trigger
produces "0123456": a seven-character code, because
`substr(…, 0, 8)` keeps positions 1..7. This contradicts the
eight-character code stated by the claim and by the comment on the
trigger itself (`-- Generates "a1b2c3d4"`). A code supplied at
creation is left unchanged. -/
theorem generate_room_code_seven_chars :
    generate_room_code "0123456789abcdef0123456789abcdef" none = some "0123456" ∧
    "0123456".length = 7 ∧
    generate_room_code "0123456789abcdef0123456789abcdef" (some "ab12cd34")
      = some "ab12cd34" :=
  ⟨rfl, rfl, rfl⟩

/-- No message left by a cascading room delete references the room. -/
theorem cascadeDeleteRoom_no_message (db : DB) (rid : Nat) :
    ∀ ms ∈ (cascadeDeleteRoom db rid).messages, ¬ ms.room_id = some rid := by
  intro ms hms
  simp only [cascadeDeleteRoom, List.mem_filter, Bool.not_eq_eq_eq_not,
    Bool.not_true, beq_eq_false_iff_ne, ne_eq] at hms
  exact hms.2

/-- No membership left by a cascading room delete references the room. -/
theorem cascadeDeleteRoom_no_member (db : DB) (rid : Nat) :
    ∀ mb ∈ (cascadeDeleteRoom db rid).room_members, ¬ mb.room_id = rid := by
  intro mb hmb
  simp only [cascadeDeleteRoom, List.mem_filter, Bool.not_eq_eq_eq_not,
    Bool.not_true, beq_eq_false_iff_ne, ne_eq] at hmb
  exact hmb.2

/-- The deleted room itself is gone after a cascading delete. -/
theorem cascadeDeleteRoom_no_room (db : DB) (rid : Nat) :
    ∀ r ∈ (cascadeDeleteRoom db rid).rooms, ¬ r.id = rid := by
  intro r hr
  simp only [cascadeDeleteRoom, List.mem_filter, Bool.not_eq_eq_eq_not,
    Bool.not_true, beq_eq_false_iff_ne, ne_eq] at hr
  exact hr.2

/-- A cascading room delete preserves the message foreign key. -/
theorem cascadeDeleteRoom_fkMessages (db : DB) (rid : Nat)
    (h : fkMessages db) : fkMessages (cascadeDeleteRoom db rid) := by
  intro ms hms rid' hrid
  have hnot := cascadeDeleteRoom_no_message db rid ms hms
  simp only [cascadeDeleteRoom, List.mem_filter] at hms
  obtain ⟨r, hr, hrid_eq⟩ := h ms hms.1 rid' hrid
  have hne : ¬ rid' = rid := by
    intro hh
    exact hnot (by rw [hrid, hh])
  refine ⟨r, ?_, hrid_eq⟩
  simp only [cascadeDeleteRoom, List.mem_filter]
  refine ⟨hr, ?_⟩
  simp [hrid_eq, hne]

/-- A cascading room delete preserves the membership foreign key. -/
theorem cascadeDeleteRoom_fkMembers (db : DB) (rid : Nat)
    (h : fkMembers db) : fkMembers (cascadeDeleteRoom db rid) := by
  intro mb hmb
  have hnot := cascadeDeleteRoom_no_member db rid mb hmb
  simp only [cascadeDeleteRoom, List.mem_filter] at hmb
  obtain ⟨r, hr, hrid_eq⟩ := h mb hmb.1
  refine ⟨r, ?_, hrid_eq⟩
  simp only [cascadeDeleteRoom, List.mem_filter]
  refine ⟨hr, ?_⟩
  simp [hrid_eq, hnot]

/-- C6: deleting a room cascades. When `delete_room` succeeds on room
`rid`, no message and no membership referencing `rid` remains (nor the
room itself), and both foreign-key invariants — a message or
membership references a room only while that room exists — are
preserved. -/
theorem delete_room_cascades
    (db : DB) (actor rid : Nat)
    (hok : (delete_room db actor rid).1 = .ok ()) :
    (∀ ms ∈ (delete_room db actor rid).2.messages, ¬ ms.room_id = some rid) ∧
    (∀ mb ∈ (delete_room db actor rid).2.room_members, ¬ mb.room_id = rid) ∧
    (∀ r ∈ (delete_room db actor rid).2.rooms, ¬ r.id = rid) ∧
    (fkMessages db → fkMessages (delete_room db actor rid).2) ∧
    (fkMembers db → fkMembers (delete_room db actor rid).2) := by
  have hstate : (delete_room db actor rid).2 = cascadeDeleteRoom db rid := by
    rcases hfind : db.rooms.find? (fun r => r.id == rid) with _ | r
    · simp only [delete_room, hfind] at hok
      cases hok
    · simp only [delete_room, hfind] at hok ⊢
      split_ifs at hok ⊢ with hcr
      rfl
  rw [hstate]
  exact ⟨cascadeDeleteRoom_no_message db rid, cascadeDeleteRoom_no_member db rid,
    cascadeDeleteRoom_no_room db rid, cascadeDeleteRoom_fkMessages db rid,
    cascadeDeleteRoom_fkMembers db rid⟩

/-- Closed instance of C6: creator 7 deletes room 1 of a state holding
a message and two memberships in it; nothing referencing room 1
survives and the foreign keys still hold. -/
theorem delete_room_cascades_witness :
    (delete_room ⟨[wRoom], [⟨1, 7⟩, ⟨1, 10⟩], [⟨5, "hi", 10, some 1⟩], []⟩ 7 1).1 = .ok () ∧
    ((∀ ms ∈ (delete_room ⟨[wRoom], [⟨1, 7⟩, ⟨1, 10⟩], [⟨5, "hi", 10, some 1⟩], []⟩ 7 1).2.messages, ¬ ms.room_id = some 1) ∧
     (∀ mb ∈ (delete_room ⟨[wRoom], [⟨1, 7⟩, ⟨1, 10⟩], [⟨5, "hi", 10, some 1⟩], []⟩ 7 1).2.room_members, ¬ mb.room_id = 1) ∧
     (∀ r ∈ (delete_room ⟨[wRoom], [⟨1, 7⟩, ⟨1, 10⟩], [⟨5, "hi", 10, some 1⟩], []⟩ 7 1).2.rooms, ¬ r.id = 1) ∧
     (fkMessages ⟨[wRoom], [⟨1, 7⟩, ⟨1, 10⟩], [⟨5, "hi", 10, some 1⟩], []⟩ →
       fkMessages (delete_room ⟨[wRoom], [⟨1, 7⟩, ⟨1, 10⟩], [⟨5, "hi", 10, some 1⟩], []⟩ 7 1).2) ∧
     (fkMembers ⟨[wRoom], [⟨1, 7⟩, ⟨1, 10⟩], [⟨5, "hi", 10, some 1⟩], []⟩ →
       fkMembers (delete_room ⟨[wRoom], [⟨1, 7⟩, ⟨1, 10⟩], [⟨5, "hi", 10, some 1⟩], []⟩ 7 1).2)) :=
  ⟨by rfl, delete_room_cascades ⟨[wRoom], [⟨1, 7⟩, ⟨1, 10⟩], [⟨5, "hi", 10, some 1⟩], []⟩ 7 1 (by rfl)⟩

/-- C7: message access is member-only. For every message of room
`rid`, the read policy and the insert policy each grant user `u`
access exactly when `u` is a current member; in particular, after a
successful kick of `u` from `rid`, `u` can no longer read the room's
messages. -/
theorem message_access_member_only
    (db : DB) (u rid : Nat) (msg : Message)
    (hroom : msg.room_id = some rid) :
    canReadMessage db (some u) msg = isMember db rid u ∧
    canSendMessage db (some u) msg = isMember db rid u ∧
    (∀ actor, (kick_member db actor rid u).1 = .ok () →
      canReadMessage (kick_member db actor rid u).2 (some u) msg = false) := by
  refine ⟨?_, ?_, ?_⟩
  · simp [canReadMessage, isMember, sqlEq, hroom]
  · simp [canSendMessage, isMember, sqlEq, hroom]
  · intro actor hok
    rcases hfind : db.rooms.find? (fun r => r.id == rid) with _ | r
    · simp only [kick_member, hfind] at hok
      cases hok
    · simp only [kick_member, hfind] at hok ⊢
      split_ifs at hok ⊢ with hcr htg
      rw [canReadMessage, List.any_eq_false]
      intro m hm
      simp only [List.mem_filter] at hm
      simp only [hroom, sqlEq, Bool.and_eq_true, beq_iff_eq]
      rintro ⟨h1, h2⟩
      have := hm.2
      simp [h1, h2] at this

/-- Closed instance of C7 in a two-member room: member 10 passes both
policies, and after creator 7 kicks 10, the read policy denies 10. -/
theorem message_access_member_only_witness :
    (Message.mk 5 "hi" 7 (some 1)).room_id = some 1 ∧
    (canReadMessage ⟨[wRoom], [⟨1, 7⟩, ⟨1, 10⟩], [⟨5, "hi", 7, some 1⟩], []⟩ (some 10) ⟨5, "hi", 7, some 1⟩
       = isMember ⟨[wRoom], [⟨1, 7⟩, ⟨1, 10⟩], [⟨5, "hi", 7, some 1⟩], []⟩ 1 10 ∧
     canSendMessage ⟨[wRoom], [⟨1, 7⟩, ⟨1, 10⟩], [⟨5, "hi", 7, some 1⟩], []⟩ (some 10) ⟨5, "hi", 7, some 1⟩
       = isMember ⟨[wRoom], [⟨1, 7⟩, ⟨1, 10⟩], [⟨5, "hi", 7, some 1⟩], []⟩ 1 10 ∧
     (∀ actor, (kick_member ⟨[wRoom], [⟨1, 7⟩, ⟨1, 10⟩], [⟨5, "hi", 7, some 1⟩], []⟩ actor 1 10).1 = .ok () →
       canReadMessage (kick_member ⟨[wRoom], [⟨1, 7⟩, ⟨1, 10⟩], [⟨5, "hi", 7, some 1⟩], []⟩ actor 1 10).2 (some 10) ⟨5, "hi", 7, some 1⟩ = false)) :=
  ⟨rfl, message_access_member_only ⟨[wRoom], [⟨1, 7⟩, ⟨1, 10⟩], [⟨5, "hi", 7, some 1⟩], []⟩ 10 1 ⟨5, "hi", 7, some 1⟩ rfl⟩

/-- C8 counterexample: user 20 is no member of room 1, whose only
membership row is creator 7's, yet the policy on `room_members`
admits 20's read because 20 is authenticated. -/
theorem room_members_readable_by_nonmember_cex :
    isMember { wDb with room_members := [⟨1, 7⟩] } 1 20 = false ∧
    canViewRoomMembers { wDb with room_members := [⟨1, 7⟩] } (some 20) = true :=
  ⟨rfl, rfl⟩

/-- C8 (amended): reading `room_members` rows is gated only on
authentication — the policy "Anyone logged in can view room members"
admits every authenticated user, member or not, while an
unauthenticated request is denied. -/
theorem room_members_policy_authenticated_only
    (db : DB) (u : Nat) :
    canViewRoomMembers db (some u) = true ∧
    canViewRoomMembers db none = false :=
  ⟨rfl, rfl⟩

/-- C9: `kick_member` is creator-only and atomic on failure. With room
`rid` present, an actor who is not the creator — or a target equal to
the creator — gets `ForbiddenError`, and the state (in particular
every membership row) is unchanged. -/
theorem kick_member_creator_only
    (db : DB) (actor rid target : Nat) (r : Room)
    (hfind : db.rooms.find? (fun q => q.id == rid) = some r)
    (hbad : ¬ actor = r.created_by ∨ target = r.created_by) :
    (kick_member db actor rid target).1 = .error .forbidden ∧
    (kick_member db actor rid target).2 = db := by
  rcases hbad with hb | hb
  · have hcr : (r.created_by == actor) = false := by
      rw [beq_eq_false_iff_ne]
      exact fun hh => hb hh.symm
    simp [kick_member, hfind, hcr]
  · by_cases hcr : (r.created_by == actor) = true
    · have htg : (target == r.created_by) = true := by
        rw [beq_iff_eq]; exact hb
      simp [kick_member, hfind, hcr, htg]
    · simp [kick_member, hfind, Bool.eq_false_iff.mpr hcr]

/-- Closed instance of C9: in a two-member room created by 7,
non-creator 10 trying to kick 7 is refused and nothing changes. -/
theorem kick_member_creator_only_witness :
    ((⟨[wRoom], [⟨1, 7⟩, ⟨1, 10⟩], [], []⟩ : DB).rooms.find? (fun q => q.id == 1) = some wRoom ∧
     (¬ (10 : Nat) = wRoom.created_by ∨ (7 : Nat) = wRoom.created_by)) ∧
    ((kick_member ⟨[wRoom], [⟨1, 7⟩, ⟨1, 10⟩], [], []⟩ 10 1 7).1 = .error .forbidden ∧
     (kick_member ⟨[wRoom], [⟨1, 7⟩, ⟨1, 10⟩], [], []⟩ 10 1 7).2 = ⟨[wRoom], [⟨1, 7⟩, ⟨1, 10⟩], [], []⟩) :=
  ⟨⟨by rfl, by decide⟩,
   kick_member_creator_only ⟨[wRoom], [⟨1, 7⟩, ⟨1, 10⟩], [], []⟩ 10 1 7 wRoom (by rfl) (by decide)⟩

/-- C10: push-token cleanup deletes exactly the permanently invalid
tokens. A stored row is gone after cleanup precisely when some
dispatched batch pairs its token with a receipt whose status is
"error" and whose `details.error` is "DeviceNotRegistered"; rows whose
receipts succeed or report any other error survive. -/
theorem push_cleanup_exactly_invalid
    (db : DB) (results : List (List String × List ExpoReceipt))
    (t : PushTokenRow) (ht : t ∈ db.push_tokens) :
    (t ∉ (pushCleanup db results).push_tokens ↔
      t.token ∈ badTokensOf results) ∧
    (t.token ∈ badTokensOf results ↔
      ∃ b ∈ results, ∃ p ∈ b.1.zip b.2, p.1 = t.token ∧
        p.2.status = "error" ∧
        p.2.details_error = some "DeviceNotRegistered") := by
  constructor
  · by_cases hb : (badTokensOf results).length > 0
    · simp [pushCleanup, hb, List.mem_filter, ht]
    · have hnil : badTokensOf results = [] :=
        List.eq_nil_of_length_eq_zero (Nat.eq_zero_of_not_pos hb)
      simp [pushCleanup, hb, hnil, ht]
  · constructor
    · intro h
      rw [badTokensOf, List.mem_flatMap] at h
      obtain ⟨b, hbm, hmem⟩ := h
      rw [batchBadTokens, List.mem_filterMap] at hmem
      obtain ⟨p, hp, hsome⟩ := hmem
      by_cases hc : (p.2.status == "error" && p.2.details_error == some "DeviceNotRegistered") = true
      · rw [if_pos hc, Option.some.injEq] at hsome
        rw [Bool.and_eq_true, beq_iff_eq, beq_iff_eq] at hc
        exact ⟨b, hbm, p, hp, hsome, hc.1, hc.2⟩
      · rw [if_neg hc] at hsome
        cases hsome
    · rintro ⟨b, hbm, p, hp, h1, h2, h3⟩
      rw [badTokensOf, List.mem_flatMap]
      refine ⟨b, hbm, ?_⟩
      rw [batchBadTokens, List.mem_filterMap]
      exact ⟨p, hp, by simp [h1, h2, h3]⟩

/-- Closed instance of C10: of three stored tokens, "tokA" (receipt
DeviceNotRegistered) is deleted while "tokB" (another error) survives;
instantiated here for the row holding "tokA". -/
theorem push_cleanup_exactly_invalid_witness :
    (PushTokenRow.mk 1 "tokA") ∈ (DB.mk [] [] [] [⟨1, "tokA"⟩, ⟨2, "tokB"⟩, ⟨3, "tokC"⟩]).push_tokens ∧
    (((⟨1, "tokA"⟩ : PushTokenRow) ∉ (pushCleanup ⟨[], [], [], [⟨1, "tokA"⟩, ⟨2, "tokB"⟩, ⟨3, "tokC"⟩]⟩
        [(["tokA", "tokB"], [⟨"error", some "DeviceNotRegistered"⟩, ⟨"error", some "MessageTooBig"⟩])]).push_tokens ↔
      (PushTokenRow.mk 1 "tokA").token ∈ badTokensOf
        [(["tokA", "tokB"], [⟨"error", some "DeviceNotRegistered"⟩, ⟨"error", some "MessageTooBig"⟩])]) ∧
     ((PushTokenRow.mk 1 "tokA").token ∈ badTokensOf
        [(["tokA", "tokB"], [⟨"error", some "DeviceNotRegistered"⟩, ⟨"error", some "MessageTooBig"⟩])] ↔
      ∃ b ∈ [(["tokA", "tokB"], [ExpoReceipt.mk "error" (some "DeviceNotRegistered"), ExpoReceipt.mk "error" (some "MessageTooBig")])],
        ∃ p ∈ b.1.zip b.2, p.1 = (PushTokenRow.mk 1 "tokA").token ∧
          p.2.status = "error" ∧
          p.2.details_error = some "DeviceNotRegistered")) :=
  ⟨by simp,
   push_cleanup_exactly_invalid ⟨[], [], [], [⟨1, "tokA"⟩, ⟨2, "tokB"⟩, ⟨3, "tokC"⟩]⟩
     [(["tokA", "tokB"], [⟨"error", some "DeviceNotRegistered"⟩, ⟨"error", some "MessageTooBig"⟩])]
     ⟨1, "tokA"⟩ (by simp)⟩

end YolcuChat
